import Mathlib

/-!
Verification of the LLM Q&A CLI application (`LLM_QA_CLI.py`).

Strings are modelled as `List Char`.  The three components of the program are
embedded as Lean functions:

* `preprocess_question` — the Normalizer (lowercase, strip punctuation,
  split on whitespace, rejoin with single spaces);
* `get_llm_response` — the Answer Requester, parameterised by the credential
  and by the outcome of the single `requests.post` call, and returning the
  answer value together with the list of POST payloads issued;
* `mainTurn` — the dispatch of one iteration of the interactive loop.

Python dynamic values decoded from JSON are modelled by the inductive `Json`;
Python attribute/subscript operations that may raise are modelled in
`Except (List Char)`.
-/

/-- Python whitespace test (`\s` in the ASCII range, the characters recognised by
both `re` and `str.split`): space, tab, newline, carriage return, vertical
tab, form feed. -/
def pyIsSpace (c : Char) : Bool :=
  c = ' ' || c = '\t' || c = '\n' || c = '\r' || c = '\x0b' || c = '\x0c'

/-- A character the regex `[^a-z0-9\s]` keeps and that is not whitespace:
a lowercase ASCII letter or an ASCII digit. -/
def isCleanChar (c : Char) : Bool :=
  (97 ≤ c.toNat && c.toNat ≤ 122) || (48 ≤ c.toNat && c.toNat ≤ 57)

/-- The character class kept by `re.sub(r'[^a-z0-9\s]', '', text)`:
lowercase letters, digits and whitespace. -/
def keepChar (c : Char) : Bool :=
  isCleanChar c || pyIsSpace c

/-- `str.lower()`, modelled on the ASCII range (`Char.toLower` lowers
exactly the letters A–Z). -/
def pyLower (s : List Char) : List Char :=
  s.map Char.toLower

/-- Worker for `str.split()` with no separator: accumulate the current token
(in reverse) and emit it at each whitespace run or at the end; empty tokens
are discarded. -/
def splitAux : List Char → List Char → List (List Char)
  | [], acc => if acc.isEmpty then [] else [acc.reverse]
  | c :: cs, acc =>
    if pyIsSpace c then
      if acc.isEmpty then splitAux cs [] else acc.reverse :: splitAux cs []
    else
      splitAux cs (c :: acc)

/-- Python `text.split()` (no argument): split on whitespace runs, dropping
empty tokens. -/
def pySplit (cs : List Char) : List (List Char) :=
  splitAux cs []

/-- Python `sep.join(tokens)`. -/
def pyJoin (sep : List Char) : List (List Char) → List Char
  | [] => []
  | [t] => t
  | t :: ts => t ++ sep ++ pyJoin sep ts

/-- `preprocess_question` from `LLM_QA_CLI.py`: empty input short-circuits to
the empty string; otherwise lowercase, delete every character outside
`[a-z0-9\s]`, split on whitespace, rejoin with single spaces. -/
def preprocess_question (question : List Char) : List Char :=
  if question.isEmpty then []
  else
    pyJoin [' '] (pySplit ((pyLower question).filter keepChar))

/-! ### Lemmas about `splitAux`, `pyJoin` and `preprocess_question` -/

theorem splitAux_ne_nil : ∀ (cs : List Char) (acc : List Char), ∀ t ∈ splitAux cs acc, t ≠ [] := by
  intro cs
  induction cs with
  | nil =>
    intro acc t ht
    simp only [splitAux] at ht
    by_cases h : acc.isEmpty <;> simp [h] at ht
    subst ht
    simpa [List.isEmpty_iff] using h
  | cons c cs ih =>
    intro acc t ht
    simp only [splitAux] at ht
    by_cases hsp : pyIsSpace c
    · by_cases h : acc.isEmpty
      · simp [hsp, h] at ht
        exact ih [] t ht
      · simp [hsp, h] at ht
        rcases ht with rfl | ht
        · simpa [List.isEmpty_iff] using h
        · exact ih [] t ht
    · simp [hsp] at ht
      exact ih (c :: acc) t ht

theorem splitAux_mem : ∀ (cs : List Char) (acc : List Char), ∀ t ∈ splitAux cs acc, ∀ c ∈ t, c ∈ cs ∨ c ∈ acc := by
  intro cs
  induction cs with
  | nil =>
    intro acc t ht c hc
    simp only [splitAux] at ht
    by_cases h : acc.isEmpty <;> simp [h] at ht
    subst ht
    right
    simpa using hc
  | cons a cs ih =>
    intro acc t ht c hc
    simp only [splitAux] at ht
    by_cases hsp : pyIsSpace a
    · have hrec : t ∈ splitAux cs [] → c ∈ a :: cs ∨ c ∈ acc := by
        intro ht2
        rcases ih [] t ht2 c hc with h1 | h1
        · exact Or.inl (List.mem_cons_of_mem _ h1)
        · simp at h1
      by_cases h : acc.isEmpty
      · simp [hsp, h] at ht
        exact hrec ht
      · simp [hsp, h] at ht
        rcases ht with rfl | ht
        · right; simpa using hc
        · exact hrec ht
    · simp [hsp] at ht
      rcases ih (a :: acc) t ht c hc with h1 | h1
      · exact Or.inl (List.mem_cons_of_mem _ h1)
      · rcases List.mem_cons.mp h1 with rfl | h2
        · exact Or.inl (List.mem_cons_self _ _)
        · exact Or.inr h2

theorem splitAux_no_space : ∀ (cs : List Char) (acc : List Char),
    (∀ c ∈ acc, pyIsSpace c = false) → ∀ t ∈ splitAux cs acc, ∀ c ∈ t, pyIsSpace c = false := by
  intro cs
  induction cs with
  | nil =>
    intro acc hacc t ht c hc
    simp only [splitAux] at ht
    by_cases h : acc.isEmpty <;> simp [h] at ht
    subst ht
    exact hacc c (by simpa using hc)
  | cons a cs ih =>
    intro acc hacc t ht c hc
    simp only [splitAux] at ht
    by_cases hsp : pyIsSpace a
    · by_cases h : acc.isEmpty
      · simp [hsp, h] at ht
        exact ih [] (by simp) t ht c hc
      · simp [hsp, h] at ht
        rcases ht with rfl | ht
        · exact hacc c (by simpa using hc)
        · exact ih [] (by simp) t ht c hc
    · simp [hsp] at ht
      refine ih (a :: acc) ?_ t ht c hc
      intro x hx
      rcases List.mem_cons.mp hx with rfl | hx2
      · simpa using hsp
      · exact hacc x hx2

theorem mem_pyJoin : ∀ (toks : List (List Char)) (c : Char), c ∈ pyJoin [' '] toks →
    c = ' ' ∨ ∃ t ∈ toks, c ∈ t := by
  intro toks
  induction toks with
  | nil => intro c hc; simp [pyJoin] at hc
  | cons t ts ih =>
    intro c hc
    cases ts with
    | nil =>
      simp only [pyJoin] at hc
      exact Or.inr ⟨t, List.mem_cons_self _ _, hc⟩
    | cons t2 ts2 =>
      simp only [pyJoin] at hc
      rcases List.mem_append.mp hc with h1 | h1
      · rcases List.mem_append.mp h1 with h2 | h2
        · exact Or.inr ⟨t, List.mem_cons_self _ _, h2⟩
        · simp at h2; exact Or.inl h2
      · rcases ih c h1 with h2 | ⟨u, hu, hcu⟩
        · exact Or.inl h2
        · exact Or.inr ⟨u, List.mem_cons_of_mem _ hu, hcu⟩

theorem isCleanChar_not_space (c : Char) (h : isCleanChar c = true) : pyIsSpace c = false := by
  simp only [isCleanChar, Bool.or_eq_true, Bool.and_eq_true, decide_eq_true_eq] at h
  simp only [pyIsSpace, Bool.or_eq_false_iff, decide_eq_false_iff_not]
  have : 48 ≤ c.toNat := by omega
  refine ⟨⟨⟨⟨⟨?_, ?_⟩, ?_⟩, ?_⟩, ?_⟩, ?_⟩ <;> intro hx <;> subst hx <;> simp_all

theorem preprocess_eq_join (q : List Char) :
    ∃ toks, (∀ t ∈ toks, t ≠ [] ∧ ∀ c ∈ t, isCleanChar c = true) ∧
      preprocess_question q = pyJoin [' '] toks := by
  by_cases h : q.isEmpty
  · exact ⟨[], by simp, by simp [preprocess_question, h, pyJoin]⟩
  · refine ⟨pySplit ((pyLower q).filter keepChar), ?_, by simp [preprocess_question, h]⟩
    intro t ht
    refine ⟨splitAux_ne_nil _ _ t ht, ?_⟩
    intro c hc
    have hns : pyIsSpace c = false := splitAux_no_space _ [] (by simp) t ht c hc
    rcases splitAux_mem _ _ t ht c hc with h1 | h1
    · have hk : keepChar c = true := List.of_mem_filter h1
      simpa [keepChar, hns] using hk
    · simp at h1

theorem toLower_fixed (c : Char) (h : isCleanChar c = true ∨ c = ' ') : Char.toLower c = c := by
  rcases h with h | rfl
  · simp only [isCleanChar, Bool.or_eq_true, Bool.and_eq_true, decide_eq_true_eq] at h
    simp only [Char.toLower]
    rw [if_neg (by omega)]
  · decide

theorem keepChar_of_clean_or_space (c : Char) (h : isCleanChar c = true ∨ c = ' ') :
    keepChar c = true := by
  rcases h with h | rfl
  · simp [keepChar, h]
  · decide

theorem splitAux_append_token : ∀ (t : List Char), (∀ c ∈ t, pyIsSpace c = false) →
    ∀ (cs acc : List Char), splitAux (t ++ cs) acc = splitAux cs (t.reverse ++ acc) := by
  intro t
  induction t with
  | nil => intro _ cs acc; simp
  | cons c t ih =>
    intro h cs acc
    have hc : pyIsSpace c = false := h c (List.mem_cons_self _ _)
    have ht : ∀ x ∈ t, pyIsSpace x = false := fun x hx => h x (List.mem_cons_of_mem _ hx)
    simp only [List.cons_append, splitAux, hc, Bool.false_eq_true, if_false, List.append_eq]
    rw [ih ht cs (c :: acc)]
    simp

theorem pySplit_pyJoin : ∀ (toks : List (List Char)),
    (∀ t ∈ toks, t ≠ [] ∧ ∀ c ∈ t, pyIsSpace c = false) →
    pySplit (pyJoin [' '] toks) = toks := by
  intro toks
  induction toks with
  | nil => intro _; rfl
  | cons t ts ih =>
    intro h
    have ht := h t (List.mem_cons_self _ _)
    have hts : ∀ u ∈ ts, u ≠ [] ∧ ∀ c ∈ u, pyIsSpace c = false :=
      fun u hu => h u (List.mem_cons_of_mem _ hu)
    have hrevne : t.reverse.isEmpty = false := by
      simp [List.isEmpty_iff, ht.1]
    cases ts with
    | nil =>
      show splitAux (pyJoin [' '] [t]) [] = [t]
      simp only [pyJoin]
      rw [show (t : List Char) = t ++ [] by simp, splitAux_append_token t ht.2]
      simp [splitAux, hrevne]
    | cons t2 ts2 =>
      show splitAux (pyJoin [' '] (t :: t2 :: ts2)) [] = t :: t2 :: ts2
      simp only [pyJoin]
      rw [List.append_assoc, splitAux_append_token t ht.2]
      simp only [List.singleton_append, List.append_nil, splitAux]
      rw [if_pos (by decide), if_neg (by simp [hrevne])]
      have := ih hts
      simp only [pySplit] at this
      simp [this]

theorem preprocess_fixed_on_join (toks : List (List Char))
    (h : ∀ t ∈ toks, t ≠ [] ∧ ∀ c ∈ t, isCleanChar c = true) :
    preprocess_question (pyJoin [' '] toks) = pyJoin [' '] toks := by
  by_cases hemp : (pyJoin [' '] toks).isEmpty
  · rw [List.isEmpty_iff] at hemp
    rw [hemp]
    rfl
  · have hchars : ∀ c ∈ pyJoin [' '] toks, isCleanChar c = true ∨ c = ' ' := by
      intro c hc
      rcases mem_pyJoin toks c hc with rfl | ⟨t, ht, hct⟩
      · exact Or.inr rfl
      · exact Or.inl ((h t ht).2 c hct)
    have hlower : pyLower (pyJoin [' '] toks) = pyJoin [' '] toks := by
      simp only [pyLower]
      exact (List.map_congr_left (fun c hc => toLower_fixed c (hchars c hc))).trans
        (List.map_id _)
    have hfilter : (pyJoin [' '] toks).filter keepChar = pyJoin [' '] toks :=
      List.filter_eq_self.mpr (fun c hc => keepChar_of_clean_or_space c (hchars c hc))
    have hsplit : pySplit (pyJoin [' '] toks) = toks := by
      refine pySplit_pyJoin toks (fun t ht => ⟨(h t ht).1, fun c hc => ?_⟩)
      exact isCleanChar_not_space c ((h t ht).2 c hc)
    simp [preprocess_question, hemp, hlower, hfilter, hsplit]

/-- C1: for every input string, `preprocess_question` returns the single-space
join of a list of nonempty tokens made only of lowercase ASCII letters and
digits; consequently every character of the result is such a letter, a digit,
or a space, and there is no leading or trailing space and no double space. -/
theorem preprocess_question_normal_form (question : List Char) :
    (∃ toks, (∀ t ∈ toks, t ≠ [] ∧ ∀ c ∈ t, isCleanChar c = true) ∧
      preprocess_question question = pyJoin [' '] toks) ∧
    ∀ c ∈ preprocess_question question, isCleanChar c = true ∨ c = ' ' := by
  obtain ⟨toks, htoks, heq⟩ := preprocess_eq_join question
  refine ⟨⟨toks, htoks, heq⟩, ?_⟩
  intro c hc
  rw [heq] at hc
  rcases mem_pyJoin toks c hc with rfl | ⟨t, ht, hct⟩
  · exact Or.inr rfl
  · exact Or.inl ((htoks t ht).2 c hct)

theorem preprocess_question_normal_form_witness : isCleanChar 'a' = true ∨ 'a' = ' ' :=
  (preprocess_question_normal_form ('a' :: '!' :: [])).2 'a' (by decide)

/-- C2: the Normalizer is idempotent: applying `preprocess_question` to its
own output returns that output unchanged. -/
theorem preprocess_question_idempotent (question : List Char) :
    preprocess_question (preprocess_question question) = preprocess_question question := by
  obtain ⟨toks, htoks, heq⟩ := preprocess_eq_join question
  rw [heq]
  exact preprocess_fixed_on_join toks htoks

/-! ### The Answer Requester (`get_llm_response`) -/

/-- A decoded JSON value (the result of `response.json()`); `null` doubles as
Python `None`.  Objects model decoded dicts, whose keys are distinct. -/
inductive Json where
  | null : Json
  | bool : Bool → Json
  | num : Int → Json
  | str : List Char → Json
  | arr : List Json → Json
  | obj : List (List Char × Json) → Json

/-- The apostrophe character. -/
def apos : Char := Char.ofNat 39

/-- Opening curly brace. -/
def lbrace : Char := Char.ofNat 123

/-- Closing curly brace. -/
def rbrace : Char := Char.ofNat 125

mutual

/-- Python `repr` of a decoded JSON value (containers rendered in Python
literal syntax; string escaping is not modelled). -/
def pyRepr : Json → List Char
  | .null => "None".data
  | .bool true => "True".data
  | .bool false => "False".data
  | .num n => (Int.repr n).data
  | .str s => apos :: s ++ [apos]
  | .arr xs => '[' :: pyReprList xs ++ [']']
  | .obj fs => lbrace :: pyReprFields fs ++ [rbrace]

/-- `repr` of list elements, comma-separated. -/
def pyReprList : List Json → List Char
  | [] => []
  | [x] => pyRepr x
  | x :: xs => pyRepr x ++ ',' :: ' ' :: pyReprList xs

/-- `repr` of dict entries, comma-separated. -/
def pyReprFields : List (List Char × Json) → List Char
  | [] => []
  | [(k, v)] => apos :: k ++ apos :: ':' :: ' ' :: pyRepr v
  | (k, v) :: fs => apos :: k ++ apos :: ':' :: ' ' :: pyRepr v ++ ',' :: ' ' :: pyReprFields fs

end

/-- Python `str()` of a decoded JSON value, as used by an f-string. -/
def pyStr : Json → List Char
  | .str s => s
  | v => pyRepr v

/-- Python truthiness of a decoded JSON value: `None`, `False`, `0`, and
empty strings/lists/dicts are falsy. -/
def Json.truthy : Json → Bool
  | .null => false
  | .bool b => b
  | .num n => n ≠ 0
  | .str s => !s.isEmpty
  | .arr xs => !xs.isEmpty
  | .obj fs => !fs.isEmpty

/-- Key lookup in a decoded dict. -/
def jsonFind : List (List Char × Json) → List Char → Option Json
  | [], _ => none
  | (k, v) :: fs, key => if k = key then some v else jsonFind fs key

/-- `d.get(key)` (default `None`): raises `AttributeError` when the receiver
is not a dict. -/
def pyGet (j : Json) (key : List Char) : Except (List Char) Json :=
  match j with
  | .obj fs => .ok ((jsonFind fs key).getD .null)
  | _ => .error ("AttributeError: object has no attribute get".data ++ key)

/-- `d.get(key, dflt)`: raises `AttributeError` when the receiver is not a
dict. -/
def pyGetD (j : Json) (key : List Char) (dflt : Json) : Except (List Char) Json :=
  match j with
  | .obj fs => .ok ((jsonFind fs key).getD dflt)
  | _ => .error ("AttributeError: object has no attribute get".data ++ key)

/-- `v[key]` with a string key: `KeyError` on a dict missing the key,
`TypeError` on non-dict receivers. -/
def pySubscript (j : Json) (key : List Char) : Except (List Char) Json :=
  match j with
  | .obj fs =>
    match jsonFind fs key with
    | some v => .ok v
    | none => .error ("KeyError: ".data ++ key)
  | .str _ => .error ("TypeError: string indices must be integers".data)
  | .arr _ => .error ("TypeError: list indices must be integers, not str".data)
  | _ => .error ("TypeError: object is not subscriptable".data)

/-- `v[i]` with integer index `i`: indexes lists and strings, `KeyError` on a
dict (JSON dict keys are strings), `TypeError` otherwise. -/
def pyIndex (j : Json) (i : Nat) : Except (List Char) Json :=
  match j with
  | .arr xs =>
    match xs.get? i with
    | some v => .ok v
    | none => .error ("IndexError: list index out of range".data)
  | .str s =>
    match s.get? i with
    | some ch => .ok (.str [ch])
    | none => .error ("IndexError: string index out of range".data)
  | .obj _ => .error ("KeyError: 0".data)
  | _ => .error ("TypeError: object is not subscriptable".data)

/-- Lines 84–87: `data.get('error', {}).get('message', 'Unknown API Error.')`
formatted as an API-error answer. -/
def apiErrorReturn (data : Json) : Except (List Char) Json := do
  let e ← pyGetD data ("error".data) (.obj [])
  let msg ← pyGetD e ("message".data) (.str ("Unknown API Error.".data))
  pure (.str ("API Error: ".data ++ pyStr msg))

/-- Lines 81–87: the branch on
`data.get('candidates') and data['candidates'][0].get('content')`, returning
`data['candidates'][0]['content']['parts'][0]['text']` on success and the
API-error string otherwise.  An `Except.error` is an exception escaping to the
enclosing `try`. -/
def extractContent (data : Json) : Except (List Char) Json := do
  let cands ← pyGet data ("candidates".data)
  if cands.truthy then
    let c0 ← pyIndex (← pySubscript data ("candidates".data)) 0
    let content ← pyGet c0 ("content".data)
    if content.truthy then
      let c0b ← pyIndex (← pySubscript data ("candidates".data)) 0
      let contentb ← pySubscript c0b ("content".data)
      let parts ← pySubscript contentb ("parts".data)
      let p0 ← pyIndex parts 0
      pySubscript p0 ("text".data)
    else
      apiErrorReturn data
  else
    apiErrorReturn data

/-- The observable outcome of the single `requests.post` call: an exception
escaping the call, or a response carrying the HTTP status code, the body text
(`response.text`), and the result of `response.json()` (which raises on a
malformed body). -/
inductive PostResult where
  | connectionError : PostResult
  | timeout : PostResult
  | otherExc : List Char → PostResult
  | ok : Nat → List Char → Except (List Char) Json → PostResult

/-- The fixed system instruction embedded in every request body. -/
def systemInstructionText : List Char :=
  "You are a concise question-answering system. Answer the user".data ++
    apos :: "s query directly and accurately, avoiding conversational filler.".data

/-- Lines 60–72: the JSON request body built around the prompt. -/
def payload (full_prompt : List Char) : Json :=
  .obj [("contents".data,
          .arr [.obj [("parts".data, .arr [.obj [("text".data, .str full_prompt)]])]]),
        ("systemInstruction".data,
          .obj [("parts".data, .arr [.obj [("text".data, .str systemInstructionText)]])])]

/-- Line 54: the configuration-error answer. -/
def apiKeyErrorMsg : List Char :=
  "ERROR: API Key not found. Please set GEMINI_API_KEY in your .env file.".data

/-- Line 93: the `requests.exceptions.ConnectionError` answer. -/
def connectionErrorMsg : List Char :=
  "Connection Error: Failed to connect to the internet or API endpoint.".data

/-- Line 95: the `requests.exceptions.Timeout` answer. -/
def timeoutErrorMsg : List Char :=
  "Timeout Error: The request took too long to complete.".data

/-- Line 97: the catch-all `except Exception` answer. -/
def unexpectedErrorMsg (e : List Char) : List Char :=
  "An unexpected error occurred: ".data ++ e

/-- Line 91: the `requests.exceptions.HTTPError` answer. -/
def httpErrorMsg (status : Nat) (body : List Char) : List Char :=
  "HTTP Error: Could not connect to API. Status code: ".data ++
    (Nat.repr status).data ++ ". Response: ".data ++ body

/-- Python truthiness of `not API_KEY` (`os.getenv` yields `None` or a
string): `None` and the empty string are falsy. -/
def apiKeyMissing : Option (List Char) → Bool
  | none => true
  | some s => s.isEmpty

/-- Lines 76–97 once the POST returned a response: `raise_for_status` raises
`HTTPError` for status codes 400–599 (rendered with the status and raw body);
otherwise the body is parsed and the content extracted; an exception from
`response.json()` or from the extraction is caught by `except Exception`. -/
def handleResponse (status : Nat) (text : List Char)
    (jsonBody : Except (List Char) Json) : Json :=
  if 400 ≤ status ∧ status ≤ 599 then
    .str (httpErrorMsg status text)
  else
    match jsonBody with
    | .error e => .str (unexpectedErrorMsg e)
    | .ok data =>
      match extractContent data with
      | .ok v => v
      | .error e => .str (unexpectedErrorMsg e)

/-- `get_llm_response` from `LLM_QA_CLI.py`, parameterised by the credential
and the outcome of the single `requests.post` call.  Returns the Python value
produced (`Json.str` in every error branch; the raw extracted fragment on the
success path) paired with the list of HTTP POST payloads issued. -/
def get_llm_response (apiKey : Option (List Char)) (net : PostResult)
    (full_prompt : List Char) : Json × List Json :=
  if apiKeyMissing apiKey then
    (.str apiKeyErrorMsg, [])
  else
    match net with
    | .connectionError => (.str connectionErrorMsg, [payload full_prompt])
    | .timeout => (.str timeoutErrorMsg, [payload full_prompt])
    | .otherExc e => (.str (unexpectedErrorMsg e), [payload full_prompt])
    | .ok status text jsonBody => (handleResponse status text jsonBody, [payload full_prompt])

/-! ### Claims about the Answer Requester -/

theorem isInfix_append_right {s l : List Char} (r : List Char) (h : s <:+: l) :
    s <:+: l ++ r := by
  obtain ⟨u, v, huv⟩ := h
  exact ⟨u, v ++ r, by rw [← huv]; simp⟩

/-- C3: with a missing (or empty) credential, `get_llm_response` returns the
configuration-error string — which contains "API Key not found" — and issues
no POST request. -/
theorem get_llm_response_no_key (apiKey : Option (List Char))
    (h : apiKeyMissing apiKey = true) (net : PostResult) (full_prompt : List Char) :
    get_llm_response apiKey net full_prompt = (.str apiKeyErrorMsg, []) ∧
    "API Key not found".data <:+: apiKeyErrorMsg := by
  refine ⟨by simp [get_llm_response, h], ?_⟩
  exact ⟨"ERROR: ".data, ". Please set GEMINI_API_KEY in your .env file.".data, by decide⟩

theorem get_llm_response_no_key_witness :
    get_llm_response none .timeout [] = (.str apiKeyErrorMsg, []) ∧
    "API Key not found".data <:+: apiKeyErrorMsg :=
  get_llm_response_no_key none rfl .timeout []

/-- The well-formed success body
`{candidates:[{content:{parts:[{text:<ans>}]}}]}`. -/
def successBody (ans : Json) : Json :=
  .obj [("candidates".data,
    .arr [.obj [("content".data,
      .obj [("parts".data, .arr [.obj [("text".data, ans)]])])]])]

/-- C4: with the credential present and a transport-level success carrying the
well-formed success body whose text fragment is "Paris", `get_llm_response`
returns exactly the string "Paris". -/
theorem get_llm_response_success_paris (apiKey : Option (List Char))
    (hk : apiKeyMissing apiKey = false) (status : Nat) (hs : status < 400)
    (text full_prompt : List Char) :
    (get_llm_response apiKey
        (.ok status text (.ok (successBody (.str "Paris".data)))) full_prompt).1
      = .str "Paris".data := by
  simp only [get_llm_response, hk, Bool.false_eq_true, if_false, handleResponse]
  rw [if_neg (by omega)]
  rfl

theorem get_llm_response_success_paris_witness :
    (get_llm_response (some ('k' :: []))
        (.ok 200 [] (.ok (successBody (.str "Paris".data)))) []).1 = .str "Paris".data :=
  get_llm_response_success_paris (some ('k' :: [])) rfl 200 (by decide) [] []

/-- C5: with the credential present and an HTTP 500 response, the answer is a
string containing both "HTTP Error" and "500". -/
theorem get_llm_response_http_500 (apiKey : Option (List Char))
    (hk : apiKeyMissing apiKey = false) (text : List Char)
    (jsonBody : Except (List Char) Json) (full_prompt : List Char) :
    ∃ s, (get_llm_response apiKey (.ok 500 text jsonBody) full_prompt).1 = .str s ∧
      "HTTP Error".data <:+: s ∧ "500".data <:+: s := by
  refine ⟨httpErrorMsg 500 text, ?_, ?_, ?_⟩
  · simp only [get_llm_response, hk, Bool.false_eq_true, if_false, handleResponse]
    rw [if_pos (by omega)]
  · have hrw : httpErrorMsg 500 text =
        "HTTP Error: Could not connect to API. Status code: 500. Response: ".data ++ text :=
      rfl
    rw [hrw]
    exact isInfix_append_right text (by decide)
  · have hrw : httpErrorMsg 500 text =
        "HTTP Error: Could not connect to API. Status code: 500. Response: ".data ++ text :=
      rfl
    rw [hrw]
    exact isInfix_append_right text (by decide)

theorem get_llm_response_http_500_witness :
    ∃ s, (get_llm_response (some ('k' :: [])) (.ok 500 [] (.error [])) []).1 = .str s ∧
      "HTTP Error".data <:+: s ∧ "500".data <:+: s :=
  get_llm_response_http_500 (some ('k' :: [])) rfl [] (.error []) []

/-- C6: with the credential present and a timeout from the POST call, the
answer is a string containing "Timeout Error". -/
theorem get_llm_response_timeout (apiKey : Option (List Char))
    (hk : apiKeyMissing apiKey = false) (full_prompt : List Char) :
    ∃ s, (get_llm_response apiKey .timeout full_prompt).1 = .str s ∧
      "Timeout Error".data <:+: s := by
  refine ⟨timeoutErrorMsg, by simp [get_llm_response, hk], ?_⟩
  exact ⟨[], ": The request took too long to complete.".data, by decide⟩

theorem get_llm_response_timeout_witness :
    ∃ s, (get_llm_response (some ('k' :: [])) .timeout []).1 = .str s ∧
      "Timeout Error".data <:+: s :=
  get_llm_response_timeout (some ('k' :: [])) rfl []

/-- C7 counterexample: with the credential present and an HTTP 200 response
whose body is the success shape except that the text fragment is the number
42, `get_llm_response` returns the number 42 — not a string. -/
theorem get_llm_response_nonstring_result :
    (get_llm_response (some ('k' :: []))
        (.ok 200 [] (.ok (successBody (.num 42)))) []).1 = .num 42 ∧
    ¬ ∃ s, (get_llm_response (some ('k' :: []))
        (.ok 200 [] (.ok (successBody (.num 42)))) []).1 = .str s := by
  refine ⟨rfl, ?_⟩
  rintro ⟨s, hs⟩
  rw [show (get_llm_response (some ('k' :: []))
        (.ok 200 [] (.ok (successBody (.num 42)))) []).1 = .num 42 from rfl] at hs
  exact Json.noConfusion hs

/-- C7 (amended): `get_llm_response` never raises — for every credential,
network outcome and prompt it returns a value; that value is a string except
possibly on the success-extraction path, whose raw text fragment is returned
as-is even when it is not a string. -/
theorem get_llm_response_never_raises (apiKey : Option (List Char))
    (net : PostResult) (full_prompt : List Char) :
    (∃ s, (get_llm_response apiKey net full_prompt).1 = .str s) ∨
    ∃ status text data, net = .ok status text (.ok data) ∧
      extractContent data = .ok (get_llm_response apiKey net full_prompt).1 := by
  by_cases hk : apiKeyMissing apiKey = true
  · exact Or.inl ⟨apiKeyErrorMsg, by simp [get_llm_response, hk]⟩
  · rw [Bool.not_eq_true] at hk
    cases net with
    | connectionError => exact Or.inl ⟨connectionErrorMsg, by simp [get_llm_response, hk]⟩
    | timeout => exact Or.inl ⟨timeoutErrorMsg, by simp [get_llm_response, hk]⟩
    | otherExc e => exact Or.inl ⟨unexpectedErrorMsg e, by simp [get_llm_response, hk]⟩
    | ok status text jsonBody =>
      by_cases hs : 400 ≤ status ∧ status ≤ 599
      · exact Or.inl ⟨httpErrorMsg status text,
          by simp [get_llm_response, hk, handleResponse, hs]⟩
      · cases jsonBody with
        | error e =>
          exact Or.inl ⟨unexpectedErrorMsg e,
            by simp [get_llm_response, hk, handleResponse, hs]⟩
        | ok data =>
          cases hex : extractContent data with
          | ok v =>
            refine Or.inr ⟨status, text, data, rfl, ?_⟩
            rw [hex]
            simp [get_llm_response, hk, handleResponse, hs, hex]
          | error e =>
            exact Or.inl ⟨unexpectedErrorMsg e,
              by simp [get_llm_response, hk, handleResponse, hs, hex]⟩

/-- C8: with a configured credential, each call to `get_llm_response` issues
exactly one HTTP POST — carrying the body built from the prompt — no matter
how that request turns out; no retry ever occurs. -/
theorem get_llm_response_single_post (apiKey : Option (List Char))
    (hk : apiKeyMissing apiKey = false) (net : PostResult) (full_prompt : List Char) :
    (get_llm_response apiKey net full_prompt).2 = [payload full_prompt] := by
  cases net <;> simp [get_llm_response, hk]

theorem get_llm_response_single_post_witness :
    (get_llm_response (some ('k' :: [])) .timeout []).2 = [payload []] :=
  get_llm_response_single_post (some ('k' :: [])) rfl .timeout []

/-! ### One turn of the interactive loop (`main`) -/

/-- Python `str.strip()` with no argument: remove leading and trailing
whitespace. -/
def pyStrip (s : List Char) : List Char :=
  ((s.dropWhile pyIsSpace).reverse.dropWhile pyIsSpace).reverse

/-- Line 128: the prompt template wrapped around the preprocessed question. -/
def mkFullPrompt (processed : List Char) : List Char :=
  "Using the following preprocessed query, provide a concise answer: ".data ++
    apos :: processed ++ [apos]

/-- What one iteration of the `while True` loop in `main` does with the line
read from the user. -/
inductive TurnResult where
  /-- Lines 113–115: the sentinel matched; the loop breaks, no normalization
  and no request happen. -/
  | exit : TurnResult
  /-- Lines 117–118: blank input; the loop continues without a request. -/
  | skip : TurnResult
  /-- Lines 120–132: the question is normalized and the full prompt is passed
  to `get_llm_response`. -/
  | ask : List Char → List Char → TurnResult

/-- Lines 109–132 of `main`: dispatch on one input line — sentinel check
(`raw_question.lower() in ['quit', 'exit']`), blank check
(`not raw_question.strip()`), else preprocess and build the prompt for
`get_llm_response`. -/
def mainTurn (raw_question : List Char) : TurnResult :=
  if pyLower raw_question = "quit".data ∨ pyLower raw_question = "exit".data then
    .exit
  else if (pyStrip raw_question).isEmpty then
    .skip
  else
    .ask (preprocess_question raw_question) (mkFullPrompt (preprocess_question raw_question))

/-- C9: an input line equal to "quit" or "exit" in any letter case ends the
session on that turn: the dispatch is `exit`, the branch that neither
normalizes nor issues a request. -/
theorem mainTurn_quit_exits (raw_question : List Char)
    (h : pyLower raw_question = "quit".data ∨ pyLower raw_question = "exit".data) :
    mainTurn raw_question = .exit := by
  simp [mainTurn, h]

theorem mainTurn_quit_exits_witness :
    mainTurn ('Q' :: 'u' :: 'I' :: 'T' :: []) = .exit :=
  mainTurn_quit_exits ('Q' :: 'u' :: 'I' :: 'T' :: []) (Or.inl (by decide))

theorem pyStrip_all_space (s : List Char) (h : (pyStrip s).isEmpty = true) :
    ∀ c ∈ s, pyIsSpace c = true := by
  simp only [pyStrip, List.isEmpty_iff, List.reverse_eq_nil_iff] at h
  rw [List.dropWhile_eq_nil_iff] at h
  intro c hc
  by_contra hne
  rw [Bool.not_eq_true] at hne
  have hsplit : s = s.takeWhile pyIsSpace ++ s.dropWhile pyIsSpace :=
    (List.takeWhile_append_dropWhile pyIsSpace s).symm
  rw [hsplit] at hc
  rcases List.mem_append.mp hc with h1 | h1
  · rw [List.mem_takeWhile_imp h1] at hne
    exact Bool.noConfusion hne
  · rw [h c (List.mem_reverse.mpr h1)] at hne
    exact Bool.noConfusion hne

/-- C10: a line that is "quit" or "exit" surrounded by at least one whitespace
character (for example " quit ") does not terminate the loop: since the
sentinel comparison lowercases but does not trim, and the line is not blank,
it is dispatched through the full normalize-and-request pipeline like an
ordinary question. -/
theorem mainTurn_padded_sentinel_asks (ws1 ws2 core : List Char)
    (hcore : core = "quit".data ∨ core = "exit".data)
    (h1 : ∀ c ∈ ws1, pyIsSpace c = true) (h2 : ∀ c ∈ ws2, pyIsSpace c = true)
    (hne : ws1 ≠ [] ∨ ws2 ≠ []) :
    mainTurn (ws1 ++ core ++ ws2) =
      .ask (preprocess_question (ws1 ++ core ++ ws2))
           (mkFullPrompt (preprocess_question (ws1 ++ core ++ ws2))) := by
  have hsent : ¬ (pyLower (ws1 ++ core ++ ws2) = "quit".data ∨
      pyLower (ws1 ++ core ++ ws2) = "exit".data) := by
    have hcl : core.length = 4 := by rcases hcore with rfl | rfl <;> rfl
    have hgt : 4 < (ws1 ++ core ++ ws2).length := by
      simp only [List.length_append, hcl]
      rcases hne with hw | hw
      · have := List.length_pos.mpr hw
        omega
      · have := List.length_pos.mpr hw
        omega
    rintro (hq | hq) <;>
    · have hlq := congrArg List.length hq
      simp only [pyLower, List.length_map] at hlq
      rw [hlq] at hgt
      exact absurd hgt (by decide)
  have hblank : ¬ (pyStrip (ws1 ++ core ++ ws2)).isEmpty = true := by
    intro hb
    have hall := pyStrip_all_space _ hb
    rcases hcore with rfl | rfl
    · have hmem : 'q' ∈ ws1 ++ "quit".data ++ ws2 :=
        List.mem_append.mpr (Or.inl (List.mem_append.mpr (Or.inr (by decide))))
      have := hall _ hmem
      simp [pyIsSpace] at this
    · have hmem : 'e' ∈ ws1 ++ "exit".data ++ ws2 :=
        List.mem_append.mpr (Or.inl (List.mem_append.mpr (Or.inr (by decide))))
      have := hall _ hmem
      simp [pyIsSpace] at this
  simp only [mainTurn]
  rw [if_neg hsent, if_neg hblank]

theorem mainTurn_padded_sentinel_asks_witness :
    mainTurn ([' '] ++ "quit".data ++ [' ']) =
      .ask (preprocess_question ([' '] ++ "quit".data ++ [' ']))
           (mkFullPrompt (preprocess_question ([' '] ++ "quit".data ++ [' ']))) :=
  mainTurn_padded_sentinel_asks [' '] [' '] "quit".data (Or.inl rfl)
    (by decide) (by decide) (Or.inl (by decide))
